import Mathlib

/-!
Shallow embedding of the `ants` goroutine-pool library (pool.go, worker.go,
internal/spinlock.go) and proofs about its scheduling and lifecycle logic.

Go `int`/`int32` values are modelled as `Int` (no arithmetic here comes close
to overflow: capacities and counters are small), channels as explicit values,
and the two atomic reads that a racing close can separate are modelled as two
boolean parameters where the code reads the state flag twice.
-/

namespace Ants

/-- Errors exported by the library (defined in ants.go of the repository,
referenced from src/pool.go). -/
inductive AntsError
  | ErrPoolClosed
  | ErrPoolOverload
  | ErrInvalidPoolExpiry
  | ErrInvalidPreAllocSize
  | ErrTimeout
  deriving DecidableEq, Repr

/-- Configuration options, with exactly the fields src/pool.go reads
(`ExpiryDuration`, `DisablePurge`, `PreAlloc`, `Nonblocking`,
`MaxBlockingTasks`). The struct itself lives in the repository's options.go,
outside src/; durations are nanosecond counts, hence `Int`. -/
structure Options where
  ExpiryDuration : Int
  DisablePurge : Bool
  PreAlloc : Bool
  Nonblocking : Bool
  MaxBlockingTasks : Int
  deriving DecidableEq, Repr

/-- Modelled from the spec: `loadOptions` with no functional options yields the
zero-value configuration (options.go is not under src/): zero expiry, all flags
false, unbounded blocking waiters (0). -/
def defaultOpts : Options :=
  { ExpiryDuration := 0, DisablePurge := false, PreAlloc := false,
    Nonblocking := false, MaxBlockingTasks := 0 }

/-- Modelled from the spec: the built-in default expiry interval that a zero
`ExpiryDuration` is replaced by (`DefaultCleanIntervalTime` in ants.go, not
under src/); one second in nanoseconds. -/
def DefaultCleanIntervalTime : Int := 1000000000

/-- Tasks are opaque zero-argument callables; a submitted value is
`Option TaskFunc`, `none` modelling Go's nil `func()`. -/
abbrev TaskFunc := Nat

/-- Pool state relevant to the claims (src/pool.go lines 35-74): `capacity`
and `running` are the int32 counters, `waiting` the blocked-submitter counter,
`closed` the OPENED/CLOSED state flag, `idle` the number of workers currently
in the idle workerArray. -/
structure Pool where
  capacity : Int
  running : Int
  waiting : Int
  closed : Bool
  idle : Nat
  opts : Options
  deriving DecidableEq, Repr

/-- Wake-up actions on the pool's condition variable. -/
inductive Wake
  | none
  | signal
  | broadcast
  deriving DecidableEq, Repr

/-- Size normalisation at the top of NewPool (src/pool.go lines 123-125):
a requested size ≤ 0 becomes -1, the unlimited marker. -/
def poolSize (size : Int) : Int :=
  if size ≤ 0 then -1 else size

/-- Expiry adjustment in NewPool (src/pool.go lines 127-133): with purge
enabled, a zero expiry interval is replaced by the built-in default. -/
def adjustExpiry (opts : Options) : Options :=
  if opts.DisablePurge = false ∧ opts.ExpiryDuration = 0 then
    { opts with ExpiryDuration := DefaultCleanIntervalTime }
  else opts

/-- NewPool (src/pool.go lines 120-169): size ≤ 0 becomes -1 (unlimited); with
purge enabled a negative expiry is `ErrInvalidPoolExpiry` and a zero expiry is
replaced by the default; pre-allocation with unlimited size is
`ErrInvalidPreAllocSize`; otherwise the pool starts open and empty. -/
def NewPool (size : Int) (opts0 : Options) : Except AntsError Pool :=
  if opts0.DisablePurge = false ∧ opts0.ExpiryDuration < 0 then
    Except.error AntsError.ErrInvalidPoolExpiry
  else if (adjustExpiry opts0).PreAlloc = true ∧ poolSize size = -1 then
    Except.error AntsError.ErrInvalidPreAllocSize
  else
    Except.ok { capacity := poolSize size, running := 0, waiting := 0,
                closed := false, idle := 0, opts := adjustExpiry opts0 }

/-- Tune (src/pool.go lines 219-232): no-op when unlimited, size ≤ 0, size
equal to current capacity, or pre-allocated; otherwise stores the new
capacity, then signals on a +1 increase, broadcasts on a larger increase. -/
def Tune (p : Pool) (size : Int) : Pool × Wake :=
  if p.capacity = -1 ∨ size ≤ 0 ∨ size = p.capacity ∨ p.opts.PreAlloc then
    (p, Wake.none)
  else if p.capacity < size then
    if size - p.capacity = 1 then ({ p with capacity := size }, Wake.signal)
    else ({ p with capacity := size }, Wake.broadcast)
  else ({ p with capacity := size }, Wake.none)

/-- Outcome record of revertWorker (src/pool.go lines 358-384): whether the
worker was accepted back, what wake-up was performed, whether it was inserted
into the idle queue, and whether its recycle timestamp was stamped. -/
structure RevertResult where
  ok : Bool
  wake : Wake
  inserted : Bool
  stamped : Bool
  deriving DecidableEq, Repr

/-- revertWorker (src/pool.go lines 358-384). `closed1` and `closed2` are the
two separate atomic reads of the state flag (line 359 and the double-check at
line 368 under the lock, which a racing Release can make differ); `insertOk`
is whether `p.workers.insert` succeeds. Over-capacity or closed at the first
check: broadcast and reject; then the timestamp is stamped; closed at the
second check or a failed insert: reject; otherwise insert, signal, accept. -/
def revertWorker (capacity running : Int) (closed1 closed2 : Bool)
    (insertOk : Bool) : RevertResult :=
  if (0 < capacity ∧ capacity < running) ∨ closed1 then
    { ok := false, wake := Wake.broadcast, inserted := false, stamped := false }
  else if closed2 then
    { ok := false, wake := Wake.none, inserted := false, stamped := true }
  else if insertOk then
    { ok := true, wake := Wake.signal, inserted := true, stamped := true }
  else
    { ok := false, wake := Wake.none, inserted := false, stamped := true }

/-- How retrieveWorker obtained (or failed to obtain) a worker: detached from
the idle queue, freshly spawned, nil returned (nonblocking or waiter limit),
or the caller parks on the condition variable. -/
inductive RetrieveResult
  | detached
  | spawned
  | noneAvail
  | blocked
  deriving DecidableEq, Repr

/-- Result of retrieveWorker: the outcome together with the updated pool. -/
structure RetrieveOut where
  res : RetrieveResult
  pool : Pool
  deriving DecidableEq, Repr

/-- retrieveWorker (src/pool.go lines 302-354), sequential semantics: first
try `workers.detach()`; else if capacity is -1 or running < capacity, spawn
(`w.run()` does `addRunning(1)`, worker.go line 49); else nil under
Nonblocking, nil when the MaxBlockingTasks waiter limit is reached, otherwise
the caller blocks in `cond.Wait()`. -/
def retrieveWorker (p : Pool) : RetrieveOut :=
  if 0 < p.idle then
    { res := RetrieveResult.detached, pool := { p with idle := p.idle - 1 } }
  else if p.capacity = -1 ∨ p.running < p.capacity then
    { res := RetrieveResult.spawned, pool := { p with running := p.running + 1 } }
  else if p.opts.Nonblocking then
    { res := RetrieveResult.noneAvail, pool := p }
  else if p.opts.MaxBlockingTasks ≠ 0 ∧ p.opts.MaxBlockingTasks ≤ p.waiting then
    { res := RetrieveResult.noneAvail, pool := p }
  else
    { res := RetrieveResult.blocked, pool := p }

/-- Result of Submit: `res = none` models a caller blocked forever in the
sequential semantics; `handed = some t` records that task `t` was sent on the
acquired worker's task channel. -/
structure SubmitOut where
  res : Option (Except AntsError Unit)
  pool : Pool
  handed : Option (Option TaskFunc)
  deriving Repr

/-- Submit (src/pool.go lines 179-189): closed pool fails with ErrPoolClosed;
a nil worker from retrieveWorker fails with ErrPoolOverload; otherwise the
task (nil funcs included, never inspected) goes to `w.task` and Submit
returns nil. -/
def Submit (p : Pool) (task : Option TaskFunc) : SubmitOut :=
  if p.closed then
    { res := some (Except.error AntsError.ErrPoolClosed), pool := p, handed := none }
  else
    match (retrieveWorker p).res with
    | RetrieveResult.noneAvail =>
        { res := some (Except.error AntsError.ErrPoolOverload),
          pool := (retrieveWorker p).pool, handed := none }
    | RetrieveResult.blocked =>
        { res := none, pool := (retrieveWorker p).pool, handed := none }
    | _ =>
        { res := some (Except.ok ()), pool := (retrieveWorker p).pool,
          handed := some task }

/-- Release (src/pool.go lines 240-250): CAS OPENED→CLOSED; on success reset
the worker queue (emptying it; each queued worker is sent the stop sentinel)
and broadcast; a repeat call fails the CAS and does nothing. -/
def Release (p : Pool) : Pool × Wake :=
  if p.closed then (p, Wake.none)
  else ({ p with closed := true, idle := 0 }, Wake.broadcast)

/-- Reboot (src/pool.go lines 273-282): CAS CLOSED→OPENED; no-op when the
pool is already open. -/
def Reboot (p : Pool) : Pool :=
  if p.closed then { p with closed := false } else p

/-- A worker goroutine exiting runs `addRunning(-1)` in its deferred cleanup
(worker.go line 52). -/
def workerExit (p : Pool) : Pool :=
  { p with running := p.running - 1 }

/-- Deferred cleanup of a worker goroutine (worker.go lines 51-67): decrement
running, then `cond.Signal()`. -/
def workerExitCleanup (p : Pool) : Pool × Wake :=
  (workerExit p, Wake.signal)

/-- Outcome of one iteration of the worker's receive loop. -/
structure WorkerStepOut where
  executed : Bool
  exits : Bool
  deriving DecidableEq, Repr

/-- One iteration of the worker loop (worker.go lines 72-81): a nil task is
the stop sentinel (return without executing); a real task is executed, then
the worker exits exactly when revertWorker rejects it. -/
def goWorkerStep (f : Option TaskFunc) (revertOk : Bool) : WorkerStepOut :=
  match f with
  | none => { executed := false, exits := true }
  | some _ => { executed := true, exits := ¬revertOk }

/-- Modelled from the spec: whether `workers.insert` succeeds (worker_array.go
is not under src/): the growable stack strategy always accepts; the
fixed-capacity circular strategy of a pre-allocated pool rejects when full
(the queue was sized to the pool's construction-time capacity, which PreAlloc
pools never tune). -/
def insertOkFor (p : Pool) : Bool :=
  decide (¬p.opts.PreAlloc ∨ p.idle < p.capacity.toNat)

/-- A running worker attempts to return itself: on acceptance it sits in the
idle queue (still counted by `running`); on rejection its goroutine exits
(worker.go lines 78-80), decrementing `running`. -/
def revertStep (p : Pool) : Pool :=
  if (revertWorker p.capacity p.running p.closed p.closed (insertOkFor p)).ok then
    { p with idle := p.idle + 1 }
  else workerExit p

/-- Operations a client or a worker can perform on the pool. -/
inductive Op
  | submit (t : Option TaskFunc)
  | tune (size : Int)
  | revert
  | exit
  | release
  | reboot
  deriving DecidableEq, Repr

/-- Effect of each operation on the pool state. -/
def applyOp : Op → Pool → Pool
  | Op.submit t, p => (Submit p t).pool
  | Op.tune s, p => (Tune p s).1
  | Op.revert, p => revertStep p
  | Op.exit, p => workerExit p
  | Op.release, p => (Release p).1
  | Op.reboot, p => Reboot p

/-- Effect of a whole operation sequence, applied left to right. -/
def applyOps (ops : List Op) (p : Pool) : Pool :=
  ops.foldl (fun q o => applyOp o q) p

/-- After close every worker's next return attempt fails (revertWorker on a
closed pool), so each of the `running` worker goroutines exits. -/
def drainClosed (p : Pool) : Pool :=
  workerExit^[p.running.toNat] p

/-- ReleaseTimeout polling loop (src/pool.go lines 262-268): `readings` are
the successive `time.Now()` values tested against `endTime`; while the
deadline is in the future, return nil once `drained` holds at that instant
(running is 0 and the scavenger is done, line 264), else sleep and repeat;
once the deadline is reached, `ErrTimeout`. -/
def releaseTimeoutPoll (endTime : Int) (drained : Int → Bool) :
    List Int → Except AntsError Unit
  | [] => Except.error AntsError.ErrTimeout
  | t :: ts =>
      if t < endTime then
        if drained t then Except.ok ()
        else releaseTimeoutPoll endTime drained ts
      else Except.error AntsError.ErrTimeout

/-- ReleaseTimeout (src/pool.go lines 253-270): fails with ErrPoolClosed when
already closed or the heartbeat canceller is nil; otherwise cancels the
scavenger, releases, computes `endTime = t0 + timeout` and runs the polling
loop. -/
def ReleaseTimeout (isClosed stopHeartbeatNil : Bool) (t0 timeout : Int)
    (drained : Int → Bool) (readings : List Int) : Except AntsError Unit :=
  if isClosed ∨ stopHeartbeatNil then Except.error AntsError.ErrPoolClosed
  else releaseTimeoutPoll (t0 + timeout) drained readings

/-- Options after `NewPool`'s zero-expiry replacement, starting from the
default configuration with purge enabled. -/
def purgedOpts : Options :=
  { ExpiryDuration := DefaultCleanIntervalTime, DisablePurge := false,
    PreAlloc := false, Nonblocking := false, MaxBlockingTasks := 0 }

/-- Concrete pool produced by `NewPool 2 defaultOpts`. -/
def cPool0 : Pool :=
  { capacity := 2, running := 0, waiting := 0, closed := false, idle := 0,
    opts := purgedOpts }

/-- Concrete operation sequence: fill the pool to its capacity of 2, then
tune the capacity down to 1. -/
def cTrace : List Op :=
  [Op.submit (some 0), Op.submit (some 0), Op.tune 1]

/-- Open pool of capacity 2 with no workers yet. -/
def pool2 : Pool :=
  { capacity := 2, running := 0, waiting := 0, closed := false, idle := 0,
    opts := defaultOpts }

/-- Open pool of capacity 2 with both workers running. -/
def pool22 : Pool :=
  { capacity := 2, running := 2, waiting := 0, closed := false, idle := 0,
    opts := defaultOpts }

/-- Configuration with a negative expiry interval but purge disabled. -/
def badExpiryOpts : Options :=
  { ExpiryDuration := -5, DisablePurge := true, PreAlloc := false,
    Nonblocking := false, MaxBlockingTasks := 0 }

/-- Pool that `NewPool 1 badExpiryOpts` successfully constructs. -/
def badExpiryPool : Pool :=
  { capacity := 1, running := 0, waiting := 0, closed := false, idle := 0,
    opts := badExpiryOpts }

/-- Configuration with a negative expiry interval and purge enabled. -/
def negExpiryOpts : Options :=
  { ExpiryDuration := -3, DisablePurge := false, PreAlloc := false,
    Nonblocking := false, MaxBlockingTasks := 0 }

end Ants

namespace Internal

/-- Backoff ceiling of the spin lock (src/internal/spinlock.go line 15). -/
def maxBackoff : Nat := 16

/-- One iteration of the spin loop after a failed CAS (src/internal/spinlock.go
lines 24-29): yield `backoff` times, then double the counter if it is still
below the ceiling. Returns (yields performed, next backoff). -/
def spinIter (backoff : Nat) : Nat × Nat :=
  (backoff, if backoff < maxBackoff then backoff * 2 else backoff)

/-- Yield counts of `n` consecutive failed CAS attempts starting from backoff
counter `b`. -/
def lockYieldCounts : Nat → Nat → List Nat
  | 0, _ => []
  | n + 1, b => (spinIter b).1 :: lockYieldCounts n (spinIter b).2

/-- spinLock.Lock (src/internal/spinlock.go lines 20-31) observed through its
yield behaviour: with `failures` failed CAS attempts before the successful
one, the list of `runtime.Gosched()` counts per failure; the backoff counter
starts at 1. -/
def spinLockYields (failures : Nat) : List Nat :=
  lockYieldCounts failures 1

/-- spinLock.Unlock (src/internal/spinlock.go lines 33-35): unconditionally
store 0 (free), whatever the current flag value. -/
def spinLockUnlock (_flag : Nat) : Nat := 0

theorem lockYieldCounts_min (n : Nat) :
    ∀ k : Nat, lockYieldCounts n (min (2 ^ k) 16)
      = (List.range n).map (fun i => min (2 ^ (k + i)) 16) := by
  induction n with
  | zero => intro k; simp [lockYieldCounts]
  | succ n ih =>
    intro k
    have hnext : (spinIter (min (2 ^ k) 16)).2 = min (2 ^ (k + 1)) 16 := by
      by_cases h : 2 ^ k < 16
      · have hk : k < 4 := by
          by_contra hk4
          push_neg at hk4
          have h4 : (16 : Nat) ≤ 2 ^ k := by
            calc (16 : Nat) = 2 ^ 4 := by norm_num
            _ ≤ 2 ^ k := Nat.pow_le_pow_right (by norm_num) hk4
          omega
        have h16 : 2 ^ (k + 1) ≤ 16 := by
          calc 2 ^ (k + 1) ≤ 2 ^ 4 := Nat.pow_le_pow_right (by norm_num) (by omega)
          _ = 16 := by norm_num
        have hmin : min (2 ^ k) 16 = 2 ^ k := by omega
        have hpow : 2 ^ k * 2 = 2 ^ (k + 1) := (pow_succ 2 k).symm
        simp only [spinIter, maxBackoff, hmin, if_pos h]
        omega
      · have hmin : min (2 ^ k) 16 = 16 := by omega
        have h16 : 16 ≤ 2 ^ (k + 1) := by
          have hmono : 2 ^ k ≤ 2 ^ (k + 1) :=
            Nat.pow_le_pow_right (by norm_num) (by omega)
          omega
        simp only [spinIter, maxBackoff, hmin, if_neg (by omega : ¬16 < 16)]
        omega
    have hhead : (spinIter (min (2 ^ k) 16)).1 = min (2 ^ k) 16 := rfl
    calc lockYieldCounts (n + 1) (min (2 ^ k) 16)
        = (spinIter (min (2 ^ k) 16)).1
            :: lockYieldCounts n (spinIter (min (2 ^ k) 16)).2 := rfl
    _ = min (2 ^ k) 16 :: lockYieldCounts n (min (2 ^ (k + 1)) 16) := by
          rw [hhead, hnext]
    _ = min (2 ^ k) 16
          :: (List.range n).map (fun i => min (2 ^ (k + 1 + i)) 16) := by
          rw [ih (k + 1)]
    _ = (List.range (n + 1)).map (fun i => min (2 ^ (k + i)) 16) := by
          rw [List.range_succ_eq_map, List.map_cons, List.map_map]
          congr 1
          apply List.map_congr_left
          intro i _
          have hki : k + 1 + i = k + (i + 1) := by omega
          simp [Function.comp, hki]

/-- C7: in spinLock.Lock, the i-th failed compare-and-swap attempt is followed
by `min (2 ^ i) 16` scheduler yields — the backoff counter starts at 1 and
doubles after each failure up to the ceiling 16, giving yield counts
1, 2, 4, 8, 16, 16, ...; spinLock.Unlock unconditionally stores the free
value 0. -/
theorem spinLock_backoff_spec :
    (∀ failures : Nat, spinLockYields failures
        = (List.range failures).map (fun i => min (2 ^ i) 16))
    ∧ ∀ flag : Nat, spinLockUnlock flag = 0 := by
  constructor
  · intro failures
    have h := lockYieldCounts_min failures 0
    simpa [spinLockYields] using h
  · intro flag
    rfl

end Internal

namespace Ants

theorem retrieveWorker_capacity (p : Pool) :
    (retrieveWorker p).pool.capacity = p.capacity := by
  unfold retrieveWorker
  split
  · rfl
  split
  · rfl
  split
  · rfl
  split
  · rfl
  · rfl

theorem retrieveWorker_running_le (p : Pool) (hpos : 0 < p.capacity)
    (hle : p.running ≤ p.capacity) :
    (retrieveWorker p).pool.running ≤ p.capacity := by
  unfold retrieveWorker
  split
  · exact hle
  split
  case isTrue h =>
    rcases h with h | h
    · omega
    · simpa using h
  split
  · exact hle
  split
  · exact hle
  · exact hle

theorem Submit_pool_eq (p : Pool) (t : Option TaskFunc) :
    (Submit p t).pool = if p.closed then p else (retrieveWorker p).pool := by
  unfold Submit
  by_cases h : p.closed
  · simp [h]
  · simp only [h, Bool.false_eq_true, if_false]
    cases hres : (retrieveWorker p).res <;> simp [hres]

theorem Tune_fst (p : Pool) (s : Int) :
    (Tune p s).1.running = p.running
    ∧ ((Tune p s).1.capacity = p.capacity ∨ (Tune p s).1.capacity = s) := by
  unfold Tune
  split
  · exact ⟨rfl, Or.inl rfl⟩
  split
  · split
    · exact ⟨rfl, Or.inr rfl⟩
    · exact ⟨rfl, Or.inr rfl⟩
  · exact ⟨rfl, Or.inr rfl⟩

/-- C5: Tune is a no-op when the pool is unlimited, the requested size is
non-positive, equal to the current capacity, or the pool is pre-allocated;
otherwise it sets the capacity to the requested size, signalling one waiter
on a +1 increase, broadcasting on a larger increase, and waking nobody on a
decrease. -/
theorem Tune_spec (p : Pool) (s : Int) :
    ((p.capacity = -1 ∨ s ≤ 0 ∨ s = p.capacity ∨ p.opts.PreAlloc = true) →
        Tune p s = (p, Wake.none))
    ∧ (¬(p.capacity = -1 ∨ s ≤ 0 ∨ s = p.capacity ∨ p.opts.PreAlloc = true) →
        (Tune p s).1 = { p with capacity := s }
        ∧ (s - p.capacity = 1 → (Tune p s).2 = Wake.signal)
        ∧ (p.capacity < s → s - p.capacity ≠ 1 → (Tune p s).2 = Wake.broadcast)
        ∧ (s < p.capacity → (Tune p s).2 = Wake.none)) := by
  constructor
  · intro h
    unfold Tune
    rw [if_pos]
    simpa using h
  · intro h
    unfold Tune
    rw [if_neg]
    · push_neg at h
      obtain ⟨h1, h2, h3, h4⟩ := h
      refine ⟨?_, ?_, ?_, ?_⟩
      · split
        · split <;> rfl
        · rfl
      · intro hone
        rw [if_pos (by omega)]
        rw [if_pos hone]
      · intro hlt hne
        rw [if_pos hlt, if_neg hne]
      · intro hlt
        rw [if_neg (by omega)]
    · simpa using h

/-- C5 witness: tuning a capacity-2 pool up to 3 sets the capacity and
signals exactly one waiter. -/
theorem Tune_spec_witness :
    (Tune pool2 3).1 = { pool2 with capacity := 3 }
    ∧ (Tune pool2 3).2 = Wake.signal := by
  have h := (Tune_spec pool2 3).2 (by decide)
  exact ⟨h.1, h.2.1 (by decide)⟩

/-- C3: revertWorker rejects the worker and broadcasts when the running count
exceeds a non-negative capacity (for the reachable capacities, which are never
zero, non-negative means positive) or the pool is seen closed at the first
check; otherwise the worker's idle timestamp is stamped, a closed pool at the
locked double-check rejects, a rejected queue insert rejects, and a
successful insert signals exactly one waiter and succeeds. -/
theorem revertWorker_spec (capacity running : Int) (c1 c2 ins : Bool)
    (hcap : 0 < capacity ∨ capacity < 0) :
    (((0 ≤ capacity ∧ capacity < running) ∨ c1 = true) →
        revertWorker capacity running c1 c2 ins
          = { ok := false, wake := Wake.broadcast, inserted := false,
              stamped := false })
    ∧ (¬((0 ≤ capacity ∧ capacity < running) ∨ c1 = true) →
        (revertWorker capacity running c1 c2 ins).stamped = true
        ∧ (c2 = true → revertWorker capacity running c1 c2 ins
            = { ok := false, wake := Wake.none, inserted := false,
                stamped := true })
        ∧ (c2 = false → ins = false →
            (revertWorker capacity running c1 c2 ins).ok = false
            ∧ (revertWorker capacity running c1 c2 ins).inserted = false)
        ∧ (c2 = false → ins = true →
            revertWorker capacity running c1 c2 ins
              = { ok := true, wake := Wake.signal, inserted := true,
                  stamped := true })) := by
  have hguard : ((0 ≤ capacity ∧ capacity < running) ∨ c1 = true)
      ↔ ((0 < capacity ∧ capacity < running) ∨ c1 = true) := by
    constructor
    · rintro (⟨h1, h2⟩ | h)
      · exact Or.inl ⟨by omega, h2⟩
      · exact Or.inr h
    · rintro (⟨h1, h2⟩ | h)
      · exact Or.inl ⟨by omega, h2⟩
      · exact Or.inr h
  constructor
  · intro h
    rw [hguard] at h
    unfold revertWorker
    rw [if_pos (by simpa using h)]
  · intro h
    rw [hguard] at h
    unfold revertWorker
    rw [if_neg (by simpa using h)]
    refine ⟨?_, ?_, ?_, ?_⟩
    · cases c2 <;> cases ins <;> simp
    · intro hc2
      rw [hc2]
      simp
    · intro hc2 hins
      rw [hc2, hins]
      simp
    · intro hc2 hins
      rw [hc2, hins]
      simp

/-- C3 witness: a worker returning with 3 running workers against capacity 2
is rejected with a broadcast and no queue insert. -/
theorem revertWorker_spec_witness :
    revertWorker 2 3 false false true
      = { ok := false, wake := Wake.broadcast, inserted := false,
          stamped := false } :=
  (revertWorker_spec 2 3 false false true (Or.inl (by decide))).1
    (Or.inl (by decide))

/-- C2: Submit fails with ErrPoolClosed on a closed pool; otherwise, when the
acquisition protocol yields no worker, it fails with ErrPoolOverload; when a
worker is obtained (detached or freshly spawned) the task is handed to that
worker's task channel and Submit returns success. -/
theorem Submit_spec (p : Pool) (t : Option TaskFunc) :
    (p.closed = true →
        (Submit p t).res = some (Except.error AntsError.ErrPoolClosed))
    ∧ (p.closed = false → (retrieveWorker p).res = RetrieveResult.noneAvail →
        (Submit p t).res = some (Except.error AntsError.ErrPoolOverload))
    ∧ (p.closed = false →
        ((retrieveWorker p).res = RetrieveResult.detached ∨
         (retrieveWorker p).res = RetrieveResult.spawned) →
        (Submit p t).res = some (Except.ok ())
        ∧ (Submit p t).handed = some t) := by
  refine ⟨?_, ?_, ?_⟩
  · intro hc
    simp [Submit, hc]
  · intro hc hres
    simp [Submit, hc, hres]
  · intro hc hres
    rcases hres with h | h <;> simp [Submit, hc, h]

/-- C2 witness: submitting to an open capacity-2 pool with no running worker
spawns a worker, hands over the task and returns success. -/
theorem Submit_spec_witness :
    (Submit pool2 (some 7)).res = some (Except.ok ())
    ∧ (Submit pool2 (some 7)).handed = some (some 7) :=
  (Submit_spec pool2 (some 7)).2.2 (by decide) (Or.inr (by decide))

/-- C9: ReleaseTimeout on an open pool with a live heartbeat canceller and a
non-positive timeout returns ErrTimeout, whatever the drained condition says
(even when running is already 0 and the scavenger has terminated), because
the first deadline test `now < endTime` already fails. -/
theorem ReleaseTimeout_nonpositive (t0 timeout : Int) (d : Int → Bool)
    (t : Int) (ts : List Int) (htimeout : timeout ≤ 0) (hmono : t0 ≤ t) :
    ReleaseTimeout false false t0 timeout d (t :: ts)
      = Except.error AntsError.ErrTimeout := by
  unfold ReleaseTimeout
  rw [if_neg (by simp)]
  unfold releaseTimeoutPoll
  rw [if_neg (by omega)]

/-- C9 witness: a zero timeout at time 100 with the drained condition already
true still yields ErrTimeout. -/
theorem ReleaseTimeout_nonpositive_witness :
    ReleaseTimeout false false 100 0 (fun _ => true) [100, 110]
      = Except.error AntsError.ErrTimeout :=
  ReleaseTimeout_nonpositive 100 0 (fun _ => true) 100 [110] (by decide)
    (by decide)

/-- C4 counterexample: with purge disabled, NewPool accepts a negative expiry
interval (the validation sits inside the `if !opts.DisablePurge` branch), so
construction does not fail for every negative-expiry configuration. -/
theorem NewPool_negExpiry_accepted_cex :
    NewPool 1 badExpiryOpts = Except.ok badExpiryPool
    ∧ badExpiryOpts.ExpiryDuration < 0 :=
  ⟨rfl, by decide⟩

/-- C4 (amended): NewPool fails with ErrInvalidPoolExpiry exactly when purge
is enabled and the expiry interval is negative, fails with
ErrInvalidPreAllocSize exactly when the expiry check did not fire and
pre-allocation is requested with unlimited size (size ≤ 0), and a zero expiry
interval with purge enabled is replaced by the built-in default instead of
failing; with purge disabled the expiry interval is not validated. -/
theorem NewPool_validation (size : Int) (opts : Options) :
    (NewPool size opts = Except.error AntsError.ErrInvalidPoolExpiry
        ↔ opts.DisablePurge = false ∧ opts.ExpiryDuration < 0)
    ∧ (NewPool size opts = Except.error AntsError.ErrInvalidPreAllocSize
        ↔ ¬(opts.DisablePurge = false ∧ opts.ExpiryDuration < 0)
          ∧ opts.PreAlloc = true ∧ size ≤ 0)
    ∧ (∀ p, NewPool size opts = Except.ok p → opts.DisablePurge = false →
        opts.ExpiryDuration = 0 →
        p.opts.ExpiryDuration = DefaultCleanIntervalTime) := by
  have hPre : (adjustExpiry opts).PreAlloc = opts.PreAlloc := by
    unfold adjustExpiry
    split <;> rfl
  have hsize : poolSize size = -1 ↔ size ≤ 0 := by
    unfold poolSize
    by_cases hs : size ≤ 0
    · simp [hs]
    · simp [hs]
      omega
  refine ⟨?_, ?_, ?_⟩
  · unfold NewPool
    by_cases h1 : opts.DisablePurge = false ∧ opts.ExpiryDuration < 0
    · rw [if_pos h1]
      simp [h1]
    · rw [if_neg h1]
      split <;> simp [h1]
  · unfold NewPool
    by_cases h1 : opts.DisablePurge = false ∧ opts.ExpiryDuration < 0
    · rw [if_pos h1]
      simp [h1]
    · rw [if_neg h1]
      by_cases h2 : (adjustExpiry opts).PreAlloc = true ∧ poolSize size = -1
      · rw [if_pos h2]
        rw [hPre] at h2
        simp [h1, h2.1, hsize.mp h2.2]
      · rw [if_neg h2]
        rw [hPre] at h2
        simp only [not_and] at h2
        constructor
        · intro h
          exact absurd h (by simp)
        · rintro ⟨-, hpa, hsz⟩
          exact absurd (hsize.mpr hsz) (h2 hpa)
  · intro p hok hd he
    unfold NewPool at hok
    by_cases h1 : opts.DisablePurge = false ∧ opts.ExpiryDuration < 0
    · rw [if_pos h1] at hok
      exact absurd hok (by simp)
    · rw [if_neg h1] at hok
      by_cases h2 : (adjustExpiry opts).PreAlloc = true ∧ poolSize size = -1
      · rw [if_pos h2] at hok
        exact absurd hok (by simp)
      · rw [if_neg h2] at hok
        injection hok with h
        rw [← h]
        show (adjustExpiry opts).ExpiryDuration = DefaultCleanIntervalTime
        unfold adjustExpiry
        rw [if_pos ⟨hd, he⟩]

/-- C4 witness: with purge enabled, a negative expiry interval makes NewPool
fail with the expiry configuration error. -/
theorem NewPool_validation_witness :
    NewPool 1 negExpiryOpts = Except.error AntsError.ErrInvalidPoolExpiry :=
  (NewPool_validation 1 negExpiryOpts).1.mpr (by decide)

/-- C10: the capacity is never zero — NewPool maps every requested size ≤ 0
to -1 (unlimited), Tune rejects every non-positive requested size, and every
operation preserves capacity being -1 or strictly positive. -/
theorem capacity_never_zero (size : Int) (opts : Options) :
    (∀ p, NewPool size opts = Except.ok p → p.capacity = -1 ∨ 0 < p.capacity)
    ∧ (size ≤ 0 → ∀ p, NewPool size opts = Except.ok p → p.capacity = -1)
    ∧ (∀ (q : Pool) (s : Int), s ≤ 0 → Tune q s = (q, Wake.none))
    ∧ (∀ (q : Pool) (o : Op), q.capacity = -1 ∨ 0 < q.capacity →
        (applyOp o q).capacity = -1 ∨ 0 < (applyOp o q).capacity) := by
  refine ⟨?_, ?_, ?_, ?_⟩
  · intro p h
    unfold NewPool at h
    by_cases h1 : opts.DisablePurge = false ∧ opts.ExpiryDuration < 0
    · rw [if_pos h1] at h
      exact absurd h (by simp)
    · rw [if_neg h1] at h
      by_cases h2 : (adjustExpiry opts).PreAlloc = true ∧ poolSize size = -1
      · rw [if_pos h2] at h
        exact absurd h (by simp)
      · rw [if_neg h2] at h
        injection h with h3
        rw [← h3]
        show poolSize size = -1 ∨ 0 < poolSize size
        unfold poolSize
        split
        · exact Or.inl rfl
        · next hs => exact Or.inr (by omega)
  · intro hs p h
    unfold NewPool at h
    by_cases h1 : opts.DisablePurge = false ∧ opts.ExpiryDuration < 0
    · rw [if_pos h1] at h
      exact absurd h (by simp)
    · rw [if_neg h1] at h
      by_cases h2 : (adjustExpiry opts).PreAlloc = true ∧ poolSize size = -1
      · rw [if_pos h2] at h
        exact absurd h (by simp)
      · rw [if_neg h2] at h
        injection h with h3
        rw [← h3]
        show poolSize size = -1
        unfold poolSize
        rw [if_pos hs]
  · intro q s hs
    unfold Tune
    rw [if_pos (Or.inr (Or.inl hs))]
  · intro q o hq
    cases o with
    | submit t =>
      rw [applyOp, Submit_pool_eq]
      split
      · exact hq
      · rw [retrieveWorker_capacity]
        exact hq
    | tune s =>
      rw [applyOp]
      unfold Tune
      split
      · exact hq
      · next h =>
        push_neg at h
        obtain ⟨-, hs0, -, -⟩ := h
        split
        · split
          · exact Or.inr hs0
          · exact Or.inr hs0
        · exact Or.inr hs0
    | revert =>
      rw [applyOp]
      unfold revertStep
      split
      · exact hq
      · exact hq
    | exit => exact hq
    | release =>
      rw [applyOp]
      unfold Release
      split
      · exact hq
      · exact hq
    | reboot =>
      rw [applyOp]
      unfold Reboot
      split
      · exact hq
      · exact hq

/-- C10 witness: tuning the capacity-2 pool to 5 keeps the capacity in the
never-zero range. -/
theorem capacity_never_zero_witness :
    (applyOp (Op.tune 5) pool2).capacity = -1
    ∨ 0 < (applyOp (Op.tune 5) pool2).capacity :=
  (capacity_never_zero 2 defaultOpts).2.2.2 pool2 (Op.tune 5)
    (Or.inr (by decide))

/-- C1 counterexample: starting from `NewPool 2` (capacity 2, non-negative
throughout), submitting two tasks spawns two workers, and tuning the capacity
down to 1 leaves the running count 2 strictly above the capacity 1 — the
stated bound does not survive a capacity-lowering tune. -/
theorem running_exceeds_capacity_cex :
    NewPool 2 defaultOpts = Except.ok cPool0
    ∧ 0 ≤ (applyOps cTrace cPool0).capacity
    ∧ (applyOps cTrace cPool0).capacity < (applyOps cTrace cPool0).running :=
  ⟨rfl, by decide, by decide⟩

/-- C1 (amended): for a pool with positive capacity satisfying
running ≤ capacity, every operation other than a capacity tune preserves the
bound (and the capacity); a tune preserves it whenever the requested size is
at least the running count; retrieveWorker spawns a new worker only when the
capacity is unlimited or running < capacity; and while running exceeds a
positive capacity, a returning worker is rejected and not re-queued. -/
theorem running_le_capacity_preserved (p : Pool) :
    (∀ o : Op, (∀ s : Int, o ≠ Op.tune s) → 0 < p.capacity →
        p.running ≤ p.capacity →
        (applyOp o p).capacity = p.capacity
        ∧ (applyOp o p).running ≤ p.capacity)
    ∧ (∀ s : Int, 0 < p.capacity → p.running ≤ p.capacity → p.running ≤ s →
        (applyOp (Op.tune s) p).running ≤ (applyOp (Op.tune s) p).capacity)
    ∧ ((retrieveWorker p).res = RetrieveResult.spawned →
        p.capacity = -1 ∨ p.running < p.capacity)
    ∧ (∀ c1 c2 ins, 0 < p.capacity → p.capacity < p.running →
        (revertWorker p.capacity p.running c1 c2 ins).ok = false
        ∧ (revertWorker p.capacity p.running c1 c2 ins).inserted = false) := by
  refine ⟨?_, ?_, ?_, ?_⟩
  · intro o hno hpos hle
    cases o with
    | submit t =>
      rw [applyOp, Submit_pool_eq]
      split
      · exact ⟨rfl, hle⟩
      · exact ⟨retrieveWorker_capacity p, retrieveWorker_running_le p hpos hle⟩
    | tune s => exact absurd rfl (hno s)
    | revert =>
      rw [applyOp]
      unfold revertStep
      split
      · exact ⟨rfl, hle⟩
      · exact ⟨rfl, by show p.running - 1 ≤ p.capacity; omega⟩
    | exit =>
      exact ⟨rfl, by show p.running - 1 ≤ p.capacity; omega⟩
    | release =>
      rw [applyOp]
      unfold Release
      split
      · exact ⟨rfl, hle⟩
      · exact ⟨rfl, hle⟩
    | reboot =>
      rw [applyOp]
      unfold Reboot
      split
      · exact ⟨rfl, hle⟩
      · exact ⟨rfl, hle⟩
  · intro s hpos hle hles
    rw [applyOp]
    unfold Tune
    split
    · exact hle
    · split
      · split
        · exact hles
        · exact hles
      · exact hles
  · intro h
    unfold retrieveWorker at h
    split at h
    · simp at h
    · split at h
      · next hg => exact hg
      · next =>
        split at h
        · simp at h
        · split at h
          · simp at h
          · simp at h
  · intro c1 c2 ins hpos hlt
    unfold revertWorker
    rw [if_pos (Or.inl ⟨hpos, hlt⟩)]
    exact ⟨rfl, rfl⟩

/-- C1 witness: a worker exit on the full capacity-2 pool keeps the running
count within the capacity. -/
theorem running_le_capacity_preserved_witness :
    (applyOp Op.exit pool22).capacity = pool22.capacity
    ∧ (applyOp Op.exit pool22).running ≤ pool22.capacity :=
  (running_le_capacity_preserved pool22).1 Op.exit (fun s => by simp)
    (by decide) (by decide)

theorem workerExit_iterate (n : Nat) (p : Pool) :
    workerExit^[n] p = { p with running := p.running - n } := by
  induction n generalizing p with
  | zero => simp
  | succ n ih =>
    rw [Function.iterate_succ_apply, ih]
    unfold workerExit
    congr 1
    push_cast
    omega

theorem drainClosed_running (p : Pool) (h : 0 ≤ p.running) :
    drainClosed p = { p with running := 0 } := by
  unfold drainClosed
  rw [workerExit_iterate]
  congr 1
  omega

/-- C6: on an open pool whose running count is non-negative (and whose
capacity is in the reachable never-zero range), Release followed by Submit
fails with ErrPoolClosed; Release is idempotent; Reboot on the open pool is a
no-op; and Release followed by worker drain, Reboot and Submit succeeds. -/
theorem release_reboot_submit (p : Pool) (t : Option TaskFunc)
    (hopen : p.closed = false) (hrun : 0 ≤ p.running)
    (hcap : p.capacity = -1 ∨ 0 < p.capacity) :
    (Submit (Release p).1 t).res = some (Except.error AntsError.ErrPoolClosed)
    ∧ Release (Release p).1 = ((Release p).1, Wake.none)
    ∧ Reboot p = p
    ∧ (Submit (Reboot (drainClosed (Release p).1)) t).res
        = some (Except.ok ()) := by
  have hrel : (Release p).1 = { p with closed := true, idle := 0 } := by
    unfold Release
    rw [if_neg (by simp [hopen])]
  refine ⟨?_, ?_, ?_, ?_⟩
  · rw [hrel]
    simp [Submit]
  · rw [hrel]
    unfold Release
    rw [if_pos rfl]
  · unfold Reboot
    rw [if_neg (by simp [hopen])]
  · have hfinal : Reboot (drainClosed (Release p).1)
        = { p with closed := false, idle := 0, running := 0 } := by
      rw [hrel, drainClosed_running _ (by simpa using hrun)]
      unfold Reboot
      rw [if_pos rfl]
    rw [hfinal]
    have hres : (retrieveWorker
        { p with closed := false, idle := 0, running := 0 }).res
        = RetrieveResult.spawned := by
      unfold retrieveWorker
      rw [if_neg (by simp)]
      rw [if_pos ?hg]
      case hg =>
        rcases hcap with h | h
        · exact Or.inl h
        · exact Or.inr (by simpa using h)
    simp [Submit, hres]

/-- C6 witness: on the concrete open capacity-2 pool, close-then-submit fails
with the closed error, and close, drain, reboot, submit succeeds. -/
theorem release_reboot_submit_witness :
    (Submit (Release pool2).1 (some 1)).res
        = some (Except.error AntsError.ErrPoolClosed)
    ∧ (Submit (Reboot (drainClosed (Release pool2).1)) (some 1)).res
        = some (Except.ok ()) := by
  have h := release_reboot_submit pool2 (some 1) (by decide) (by decide)
    (Or.inr (by decide))
  exact ⟨h.1, h.2.2.2⟩

/-- C8: submitting a nil task to an open pool that can supply a worker
returns success and hands the nil value to the worker; the worker loop treats
nil as the stop sentinel — nothing is executed and the goroutine exits — and
the exit cleanup decrements the running count by one (and signals). -/
theorem submit_nil_task_stops_worker (p : Pool) (hopen : p.closed = false)
    (havail : 0 < p.idle ∨ p.capacity = -1 ∨ p.running < p.capacity) :
    (Submit p none).res = some (Except.ok ())
    ∧ (Submit p none).handed = some none
    ∧ (∀ b, goWorkerStep none b = { executed := false, exits := true })
    ∧ ∀ q : Pool, (workerExitCleanup q).1.running = q.running - 1
        ∧ (workerExitCleanup q).2 = Wake.signal := by
  have hres : (retrieveWorker p).res = RetrieveResult.detached
      ∨ (retrieveWorker p).res = RetrieveResult.spawned := by
    unfold retrieveWorker
    by_cases hidle : 0 < p.idle
    · rw [if_pos hidle]
      exact Or.inl rfl
    · rw [if_neg hidle]
      rw [if_pos (havail.resolve_left hidle)]
      exact Or.inr rfl
  refine ⟨?_, ?_, ?_, ?_⟩
  · rcases hres with h | h <;> simp [Submit, hopen, h]
  · rcases hres with h | h <;> simp [Submit, hopen, h]
  · intro b
    rfl
  · intro q
    exact ⟨rfl, rfl⟩

/-- C8 witness: submitting nil to the concrete open capacity-2 pool succeeds
and hands the nil sentinel to the worker. -/
theorem submit_nil_task_stops_worker_witness :
    (Submit pool2 none).res = some (Except.ok ())
    ∧ (Submit pool2 none).handed = some none := by
  have h := submit_nil_task_stops_worker pool2 (by decide)
    (Or.inr (Or.inr (by decide)))
  exact ⟨h.1, h.2.1⟩

end Ants
